import Mathlib

set_option maxRecDepth 4000

/-!
Shallow embedding of the conformance-checking core of
`scripts/validate-metadata.js`: locating the `invoke` handler in the parsed
source tree (`findInvokeHandler`), collecting statically-read input names
(`extractInputs`), collecting statically-produced output names and return-shape
flags (`extractOutputs`), and diffing both against the declared contract
(`validateConformance`).

The syntax-tree model covers exactly the node kinds the validator
pattern-matches on (object literals, member accesses, variable declarators,
return statements, function literals, calls, awaits, assignments), and the
walkers mirror `acorn-walk`'s `simple` traversal: every node is visited,
children first, including the bodies of function literals nested inside the
handler.  Places where the JavaScript would throw a `TypeError` (accessing
`.params` of a non-function node, or `.key` of a spread element while searching
for the `invoke` property) are modelled as `Except.error`.
-/

/-- A property key as the validator reads it via `key.name || key.value`:
either an identifier key or a string-literal key. -/
inductive Key where
  | ident (name : String)
  | lit (value : String)
deriving Repr, DecidableEq

/-- The string the validator extracts from a key (`key.name || key.value`). -/
def Key.str : Key → String
  | .ident n => n
  | .lit v => v

mutual

/-- Expression nodes of the source tree, restricted to the kinds the
validator's pattern matching and traversal distinguish. -/
inductive Expr where
  | ident (name : String)
  | strLit (value : String)
  | numLit (value : Int)
  | object (props : List ObjProp)
  | member (obj : Expr) (property : Key) (computed : Bool)
  | call (callee : Expr) (args : List Expr)
  | awaitE (arg : Expr)
  | assign (target : Expr) (value : Expr)
  | fn (isAsync : Bool) (params : List Pat) (body : FunBody)

/-- A property of an object literal: an explicit key-value property or a
spread element. -/
inductive ObjProp where
  | prop (key : Key) (value : Expr)
  | spread (arg : Expr)

/-- Binding patterns: a plain identifier or an object-destructuring pattern
(the validator reads only the keys of a destructuring pattern). -/
inductive Pat where
  | ident (name : String)
  | objectPat (keys : List Key)

/-- A function body: a bare expression (arrow shorthand) or a block. -/
inductive FunBody where
  | expr (e : Expr)
  | block (stmts : List Stmt)

/-- Statement nodes of the source tree. -/
inductive Stmt where
  | ret (arg : Option Expr)
  | varDecl (decls : List VarDeclarator)
  | exprStmt (e : Expr)
  | block (stmts : List Stmt)
  | ifStmt (cond : Expr) (thn : Stmt) (els : Option Stmt)

/-- A single declarator `id = init` inside a variable declaration. -/
inductive VarDeclarator where
  | mk (id : Pat) (init : Option Expr)

end

/-- A top-level item of the parsed module: a default export (with its declared
expression) or any other statement, which the handler search ignores. -/
inductive TopItem where
  | exportDefault (declaration : Expr)
  | other

/-- Whether a node is a function literal (has `params` and `body`). -/
def isFunctionNode : Expr → Bool
  | .fn _ _ _ => true
  | _ => false

/-- Insertion-ordered set insertion, as JavaScript's `Set.add`: append the
element unless it is already present. -/
def addUniq (xs : List String) (x : String) : List String :=
  if x ∈ xs then xs else xs ++ [x]

/-- Build an insertion-ordered set from a list, as `new Set(list)`. -/
def mkSet (xs : List String) : List String :=
  xs.foldl addUniq []

/-- The `TypeError` raised when `invokeFn.params` is read off a node that is
not a function. -/
def typeErrorParams : String :=
  "TypeError: Cannot read properties of undefined (reading 0)"

/-- The `TypeError` raised when `p.key` is read off a spread element while
searching the default export's properties for `invoke`. -/
def typeErrorKey : String :=
  "TypeError: Cannot read properties of undefined (reading name)"

/-- Scan the default export's properties for one whose key is `invoke`,
left to right, as `Array.prototype.find` with the predicate
`(p.key.name || p.key.value) === 'invoke'`; a spread element reached before a
match makes the predicate throw. -/
def findInvokeProp : List ObjProp → Except String (Option Expr)
  | [] => .ok none
  | .spread _ :: _ => .error typeErrorKey
  | .prop k v :: rest =>
      if k.str = "invoke" then .ok (some v) else findInvokeProp rest

/-- Locate the first default export; require its declared value to be an
object literal; return the `invoke` property's value if any.  Note that the
value is returned as-is: it is not checked to be a function. -/
def findInvokeHandler (body : List TopItem) : Except String (Option Expr) :=
  match body.find? (fun n => match n with
    | .exportDefault _ => true
    | .other => false) with
  | none => .ok none
  | some (.exportDefault decl) =>
      match decl with
      | .object props => findInvokeProp props
      | _ => .ok none
  | some .other => .ok none

/-- The `VariableDeclarator` visitor of `extractInputs`: if the declarator
destructures an object pattern from an identifier whose name is exactly the
aliased parameter's name, add each destructured key. -/
def handleDeclarator (p : String) (d : VarDeclarator) (acc : List String) :
    List String :=
  match d with
  | .mk (.objectPat keys) (some (.ident nm)) =>
      if nm = p then keys.foldl (fun a k => addUniq a k.str) acc else acc
  | _ => acc

/-- The `MemberExpression` visitor of `extractInputs`: a non-computed field
access whose object is an identifier with the aliased parameter's name adds
the field name; computed accesses add nothing. -/
def handleMember (p : String) (obj : Expr) (property : Key) (computed : Bool)
    (acc : List String) : List String :=
  match obj with
  | .ident nm =>
      if nm = p ∧ computed = false then addUniq acc property.str else acc
  | _ => acc

mutual

/-- Input-collection walk over an expression (children first, then the node's
visitor, as `acorn-walk`'s `simple`). -/
def inpExpr (p : String) : Expr → List String → List String
  | .ident _, acc => acc
  | .strLit _, acc => acc
  | .numLit _, acc => acc
  | .object props, acc => inpProps p props acc
  | .member obj property computed, acc =>
      handleMember p obj property computed (inpExpr p obj acc)
  | .call callee args, acc => inpExprs p args (inpExpr p callee acc)
  | .awaitE a, acc => inpExpr p a acc
  | .assign l r, acc => inpExpr p r (inpExpr p l acc)
  | .fn _ _ b, acc => inpBody p b acc

/-- Input-collection walk over a list of expressions, left to right. -/
def inpExprs (p : String) : List Expr → List String → List String
  | [], acc => acc
  | e :: es, acc => inpExprs p es (inpExpr p e acc)

/-- Input-collection walk over an object literal's properties. -/
def inpProps (p : String) : List ObjProp → List String → List String
  | [], acc => acc
  | .prop _ v :: rest, acc => inpProps p rest (inpExpr p v acc)
  | .spread a :: rest, acc => inpProps p rest (inpExpr p a acc)

/-- Input-collection walk over a function body. -/
def inpBody (p : String) : FunBody → List String → List String
  | .expr e, acc => inpExpr p e acc
  | .block stmts, acc => inpStmts p stmts acc

/-- Input-collection walk over a statement. -/
def inpStmt (p : String) : Stmt → List String → List String
  | .ret none, acc => acc
  | .ret (some e), acc => inpExpr p e acc
  | .varDecl ds, acc => inpDecls p ds acc
  | .exprStmt e, acc => inpExpr p e acc
  | .block stmts, acc => inpStmts p stmts acc
  | .ifStmt c t none, acc => inpStmt p t (inpExpr p c acc)
  | .ifStmt c t (some e), acc => inpStmt p e (inpStmt p t (inpExpr p c acc))

/-- Input-collection walk over a list of statements, in order. -/
def inpStmts (p : String) : List Stmt → List String → List String
  | [], acc => acc
  | s :: rest, acc => inpStmts p rest (inpStmt p s acc)

/-- Input-collection walk over a list of declarators, in order. -/
def inpDecls (p : String) : List VarDeclarator → List String → List String
  | [], acc => acc
  | d :: rest, acc => inpDecls p rest (inpDecl p d acc)

/-- Input-collection walk over one declarator: walk the initializer first,
then run the `VariableDeclarator` visitor on the node. -/
def inpDecl (p : String) : VarDeclarator → List String → List String
  | .mk pat none, acc => handleDeclarator p (.mk pat none) acc
  | .mk pat (some e), acc =>
      handleDeclarator p (.mk pat (some e)) (inpExpr p e acc)

end

/-- Read the handler's first parameter (a `TypeError` if the node is not a
function); no parameter yields the empty set; a destructuring-pattern
parameter yields exactly its keys; an identifier parameter triggers the body
walk for destructurings of, and member accesses on, that alias. -/
def extractInputs : Expr → Except String (List String)
  | .fn _ [] _ => .ok []
  | .fn _ (.objectPat keys :: _) _ => .ok (mkSet (keys.map Key.str))
  | .fn _ (.ident nm :: _) b => .ok (inpBody nm b [])
  | _ => .error typeErrorParams

/-- The structural-defect message for a spread element in a returned object
literal. -/
def spreadErrMsg : String :=
  "Return statements in invoke must use explicit keys, not spread"

/-- The result of `extractOutputs`: the insertion-ordered set of produced
keys, the structural-defect messages, and the dynamic-return flag. -/
structure OutSt where
  outputs : List String
  errors : List String
  hasDynamicReturn : Bool
deriving Repr, DecidableEq

/-- The initial `extractOutputs` state. -/
def OutSt.empty : OutSt := ⟨[], [], false⟩

/-- The `ReturnStatement` visitor of `extractOutputs`: no argument contributes
nothing; an object-literal argument contributes each explicit key and one
defect message per spread element; any other argument sets the
dynamic-return flag. -/
def handleReturn (arg : Option Expr) (st : OutSt) : OutSt :=
  match arg with
  | none => st
  | some (.object props) =>
      props.foldl (fun s pr =>
        match pr with
        | .spread _ => { s with errors := s.errors ++ [spreadErrMsg] }
        | .prop k _ => { s with outputs := addUniq s.outputs k.str }) st
  | some _ => { st with hasDynamicReturn := true }

mutual

/-- Output-collection walk over an expression (children first; descends into
nested function literals). -/
def outExpr : Expr → OutSt → OutSt
  | .ident _, st => st
  | .strLit _, st => st
  | .numLit _, st => st
  | .object props, st => outProps props st
  | .member obj _ _, st => outExpr obj st
  | .call callee args, st => outExprs args (outExpr callee st)
  | .awaitE a, st => outExpr a st
  | .assign l r, st => outExpr r (outExpr l st)
  | .fn _ _ b, st => outBody b st

/-- Output-collection walk over a list of expressions, left to right. -/
def outExprs : List Expr → OutSt → OutSt
  | [], st => st
  | e :: es, st => outExprs es (outExpr e st)

/-- Output-collection walk over an object literal's properties. -/
def outProps : List ObjProp → OutSt → OutSt
  | [], st => st
  | .prop _ v :: rest, st => outProps rest (outExpr v st)
  | .spread a :: rest, st => outProps rest (outExpr a st)

/-- Output-collection walk over a function body. -/
def outBody : FunBody → OutSt → OutSt
  | .expr e, st => outExpr e st
  | .block stmts, st => outStmts stmts st

/-- Output-collection walk over a statement: for a return statement, walk the
argument's children first, then run the `ReturnStatement` visitor. -/
def outStmt : Stmt → OutSt → OutSt
  | .ret none, st => handleReturn none st
  | .ret (some e), st => handleReturn (some e) (outExpr e st)
  | .varDecl ds, st => outDecls ds st
  | .exprStmt e, st => outExpr e st
  | .block stmts, st => outStmts stmts st
  | .ifStmt c t none, st => outStmt t (outExpr c st)
  | .ifStmt c t (some e), st => outStmt e (outStmt t (outExpr c st))

/-- Output-collection walk over a list of statements, in order. -/
def outStmts : List Stmt → OutSt → OutSt
  | [], st => st
  | s :: rest, st => outStmts rest (outStmt s st)

/-- Output-collection walk over a list of declarators. -/
def outDecls : List VarDeclarator → OutSt → OutSt
  | [], st => st
  | .mk _ none :: rest, st => outDecls rest st
  | .mk _ (some e) :: rest, st => outDecls rest (outExpr e st)

end

/-- Walk the handler's whole body (a `TypeError` if the node is not a
function) collecting produced keys, spread defects, and the dynamic-return
flag. -/
def extractOutputs : Expr → Except String OutSt
  | .fn _ _ b => .ok (outBody b OutSt.empty)
  | _ => .error typeErrorParams

/-- The declared contract: the names of its inputs and outputs, in
declaration order (`Object.keys`). -/
structure Contract where
  inputs : List String
  outputs : List String
deriving Repr, DecidableEq

/-- The comparator's result: ordered error and warning lists. -/
structure ConformanceResult where
  errors : List String
  warnings : List String
deriving Repr, DecidableEq

/-- A run passes exactly when its error list is empty; warnings are
advisory. -/
def ConformanceResult.passed (r : ConformanceResult) : Bool :=
  r.errors.isEmpty

/-- Error text for an input read by the code but not declared. -/
def inputErrMsg (i : String) : String :=
  s!"Input \"{i}\" is used in code but not declared in metadata"

/-- Warning text for a declared input the code never reads. -/
def inputWarnMsg (i : String) : String :=
  s!"Input \"{i}\" is declared in metadata but not read by invoke handler"

/-- Error text for a declared output the code never returns. -/
def outputMissingMsg (o : String) : String :=
  s!"Output \"{o}\" is declared in metadata but not returned by invoke handler"

/-- Error text for a returned key not declared as an output. -/
def outputUndeclaredMsg (o : String) : String :=
  s!"Output \"{o}\" is returned by invoke handler but not declared in metadata"

/-- The single warning emitted when output checks are skipped because of a
dynamic return. -/
def dynamicWarnMsg : String :=
  "Invoke handler returns a function call instead of an explicit object literal. Output conformance check skipped. Best practice: return an explicit object with named keys."

/-- The fatal error when no invoke handler is located. -/
def noHandlerErr : String :=
  "no invoke handler found in default export"

/-- The errors pushed by the loop over `codeInputs` (used but undeclared). -/
def inputErrors (c : Contract) (codeInputs : List String) : List String :=
  (codeInputs.filter (fun i => decide (i ∉ c.inputs))).map inputErrMsg

/-- The warnings pushed by the loop over `metadataInputs` (declared but
unread). -/
def inputWarnings (c : Contract) (codeInputs : List String) : List String :=
  (c.inputs.filter (fun i => decide (i ∉ codeInputs))).map inputWarnMsg

/-- The errors pushed by the loop over `metadataOutputs` (declared but not
produced). -/
def outputMissingErrors (c : Contract) (produced : List String) : List String :=
  (c.outputs.filter (fun o => decide (o ∉ produced))).map outputMissingMsg

/-- The errors pushed by the loop over `codeOutputs` (produced but not
declared). -/
def outputUndeclaredErrors (c : Contract) (produced : List String) :
    List String :=
  (produced.filter (fun o => decide (o ∉ c.outputs))).map outputUndeclaredMsg

/-- The comparator run once a handler is located: errors start from the
structural defects, then input mismatches; if the return is dynamic and no
key was found, output checks are skipped for one warning, otherwise both
output checks run. -/
def compareConformance (c : Contract) (codeInputs : List String) (o : OutSt) :
    ConformanceResult :=
  if o.hasDynamicReturn && o.outputs.isEmpty then
    { errors := o.errors ++ inputErrors c codeInputs
      warnings := inputWarnings c codeInputs ++ [dynamicWarnMsg] }
  else
    { errors := o.errors ++ inputErrors c codeInputs
        ++ outputMissingErrors c o.outputs
        ++ outputUndeclaredErrors c o.outputs
      warnings := inputWarnings c codeInputs }

/-- The conformance half of `validateConformance`: locate the handler (a
missing handler is the single fatal error), extract inputs and outputs
(either may raise a `TypeError` when the located value is not a function),
then compare against the contract. -/
def validateConformance (metadata : Contract) (ast : List TopItem) :
    Except String ConformanceResult := do
  match ← findInvokeHandler ast with
  | none => pure { errors := [noHandlerErr], warnings := [] }
  | some invokeFn => do
      let codeInputs ← extractInputs invokeFn
      let o ← extractOutputs invokeFn
      pure (compareConformance metadata codeInputs o)

/-- Whether an `Except` value is a success. -/
def exceptIsOk {α : Type} : Except String α → Bool
  | .ok _ => true
  | .error _ => false

/-- The explicit (non-spread) keys of an object literal's properties, in
order, as the validator reads them. -/
def objPropKeys : List ObjProp → List String
  | [] => []
  | .prop k _ :: rest => k.str :: objPropKeys rest
  | .spread _ :: rest => objPropKeys rest

/-- How many spread elements an object literal's property list holds. -/
def spreadCount : List ObjProp → Nat
  | [] => 0
  | .prop _ _ :: rest => spreadCount rest
  | .spread _ :: rest => spreadCount rest + 1

/-- Whether an expression is exactly an identifier bearing the given alias
name (the only initializer shape the declarator visitor matches). -/
def isAliasIdent (p : String) : Expr → Bool
  | .ident nm => nm = p
  | _ => false

/-- Handler whose single return is a record literal with an explicit key and
a spread element: `return { status: 'ok', ...extra }`. -/
def c1Fn : Expr :=
  .fn true [.ident "params"] (.block
    [.ret (some (.object [.prop (.ident "status") (.strLit "ok"),
                          .spread (.ident "extra")]))])

/-- Module whose default export carries `invoke: 42` — the located `invoke`
value is a number, not a function. -/
def c2BadAst : List TopItem :=
  [.exportDefault (.object [.prop (.ident "invoke") (.numLit 42)])]

/-- Module whose default export carries a well-formed async handler. -/
def c2GoodAst : List TopItem :=
  [.exportDefault (.object [.prop (.ident "invoke")
    (.fn true [.ident "params"] (.block []))])]

/-- Module whose default export carries `invoke: 'nope'` — a string, not a
function. -/
def c3Ast : List TopItem :=
  [.exportDefault (.object [.prop (.ident "invoke") (.strLit "nope")])]

/-- Contract used by the C4 witness. -/
def c4Contract : Contract := ⟨["x"], ["status"]⟩

/-- Collector state with a dynamic return, no keys, and one defect. -/
def c4DynOut : OutSt := ⟨[], [spreadErrMsg], true⟩

/-- Collector state with a dynamic return elsewhere but one found key. -/
def c4FoundOut : OutSt := ⟨["status"], [], true⟩

/-- Contract of the unused-input example: inputs x and y, output status. -/
def c5Contract : Contract := ⟨["x", "y"], ["status"]⟩

/-- Collector state of a fully conformant return shape. -/
def c5Out : OutSt := ⟨["status"], [], false⟩

/-- Handler whose only return statement sits inside a nested callback passed
to a call: `helper(() => { return { status: 'ok' }; })`. -/
def c6Fn : Expr :=
  .fn true [.ident "params"] (.block
    [.exprStmt (.call (.ident "helper")
      [.fn false [] (.block
        [.ret (some (.object [.prop (.ident "status") (.strLit "ok")]))])])])

/-- Handler reading `params.foo` (non-computed) and `params['bar']`
(computed, literal string key). -/
def c7Fn : Expr :=
  .fn true [.ident "params"] (.block
    [.exprStmt (.member (.ident "params") (.ident "foo") false),
     .exprStmt (.member (.ident "params") (.lit "bar") true)])

/-- Handler that reassigns its aliased parameter and then destructures the
alias name: `params = other; const { x } = params;`. -/
def c8Fn : Expr :=
  .fn true [.ident "params"] (.block
    [.exprStmt (.assign (.ident "params") (.ident "other")),
     .varDecl [.mk (.objectPat [.ident "x"]) (some (.ident "params"))]])

/-- Handler with both an undeclared input read and a spread defect, its
explicit return key conformant: `params.foo; return { status: 'ok',
...extra };`. -/
def c9Fn : Expr :=
  .fn true [.ident "params"] (.block
    [.exprStmt (.member (.ident "params") (.ident "foo") false),
     .ret (some (.object [.prop (.ident "status") (.strLit "ok"),
                          .spread (.ident "extra")]))])

/-- Module exporting the C9 handler as `invoke`. -/
def c9Ast : List TopItem :=
  [.exportDefault (.object [.prop (.ident "invoke") c9Fn])]

/-- Contract for the C9 run: no inputs, one output named status. -/
def c9Contract : Contract := ⟨[], ["status"]⟩

/-- Handler whose alias destructuring and member access both sit inside a
nested callback: `arr.map((z) => { const { a } = params; params.b; })`. -/
def c10Fn : Expr :=
  .fn true [.ident "params"] (.block
    [.exprStmt (.call (.member (.ident "arr") (.ident "map") false)
      [.fn false [.ident "z"] (.block
        [.varDecl [.mk (.objectPat [.ident "a"]) (some (.ident "params"))],
         .exprStmt (.member (.ident "params") (.ident "b") false)])])])

theorem string_data_append (s t : String) : (s ++ t).data = s.data ++ t.data := by
  cases s
  cases t
  rfl

theorem inputWarnMsg_ne_dynamicWarnMsg (i : String) :
    inputWarnMsg i ≠ dynamicWarnMsg := by
  intro h
  have hd := congrArg String.data h
  rw [show inputWarnMsg i = "Input \"" ++ i ++ "\" is declared in metadata but not read by invoke handler" from rfl] at hd
  rw [string_data_append, string_data_append] at hd
  have h2 := congrArg (fun l => l[2]?) hd
  simp only [List.cons_append] at h2
  simp only [List.getElem?_cons_succ, List.getElem?_cons_zero] at h2
  rw [show dynamicWarnMsg.data[2]? = some 'v' from rfl] at h2
  simp at h2

theorem count_dynamic_inputWarnings (c : Contract) (ci : List String) :
    (inputWarnings c ci).count dynamicWarnMsg = 0 := by
  rw [List.count_eq_zero]
  intro h
  simp only [inputWarnings, List.mem_map] at h
  obtain ⟨i, _, hi⟩ := h
  exact inputWarnMsg_ne_dynamicWarnMsg i hi

theorem mem_addUniq {xs : List String} {y x : String} :
    x ∈ addUniq xs y ↔ x ∈ xs ∨ x = y := by
  by_cases h : y ∈ xs
  · simp only [addUniq, if_pos h]
    constructor
    · exact fun hx => Or.inl hx
    · rintro (hx | rfl)
      · exact hx
      · exact h
  · simp [addUniq, if_neg h]

theorem mem_foldl_addUniq (l : List String) (acc : List String) (x : String) :
    x ∈ l.foldl addUniq acc ↔ x ∈ acc ∨ x ∈ l := by
  induction l generalizing acc with
  | nil => simp
  | cons y ys ih =>
      simp only [List.foldl_cons, ih, mem_addUniq, List.mem_cons]
      tauto

theorem handleReturn_object (props : List ObjProp) (st : OutSt) :
    handleReturn (some (.object props)) st =
      ⟨(objPropKeys props).foldl addUniq st.outputs,
       st.errors ++ List.replicate (spreadCount props) spreadErrMsg,
       st.hasDynamicReturn⟩ := by
  simp only [handleReturn]
  induction props generalizing st with
  | nil => simp [objPropKeys, spreadCount]
  | cons pr rest ih =>
      cases pr with
      | prop k v =>
          simp only [List.foldl_cons, objPropKeys, spreadCount, ih]
      | spread a =>
          simp only [List.foldl_cons, objPropKeys, spreadCount, ih,
            List.replicate_succ, List.append_assoc, List.singleton_append]

theorem compareConformance_dyn (c : Contract) (ci : List String) (o : OutSt)
    (h1 : o.hasDynamicReturn = true) (h2 : o.outputs = []) :
    compareConformance c ci o =
      ⟨o.errors ++ inputErrors c ci, inputWarnings c ci ++ [dynamicWarnMsg]⟩ := by
  simp [compareConformance, h1, h2]

theorem compareConformance_found (c : Contract) (ci : List String) (o : OutSt)
    (h2 : o.outputs ≠ []) :
    compareConformance c ci o =
      ⟨o.errors ++ inputErrors c ci ++ outputMissingErrors c o.outputs
         ++ outputUndeclaredErrors c o.outputs,
       inputWarnings c ci⟩ := by
  have he : o.outputs.isEmpty = false := by
    cases ho : o.outputs with
    | nil => exact absurd ho h2
    | cons a l => rfl
  simp [compareConformance, he]

/-- C1 counterexample: on the handler returning { status: 'ok', ...extra },
the collector records the spread defect yet still adds the explicit key
status to ProducedSet — the claim that such a return contributes no keys at
all is false. -/
theorem c1_counterexample :
    (extractOutputs c1Fn).map OutSt.outputs = .ok ["status"] ∧
    (extractOutputs c1Fn).map OutSt.errors = .ok [spreadErrMsg] :=
  ⟨rfl, rfl⟩

/-- C1 amended: a return statement whose argument is a record literal records
one structural defect per spread element, while its explicitly listed keys
still contribute to ProducedSet; only the spread elements themselves
contribute no keys, and the dynamic-return flag is untouched. -/
theorem c1_spread_defect_keeps_explicit_keys (props : List ObjProp)
    (st : OutSt) :
    (handleReturn (some (.object props)) st).errors
        = st.errors ++ List.replicate (spreadCount props) spreadErrMsg ∧
    (∀ k, k ∈ (handleReturn (some (.object props)) st).outputs ↔
        k ∈ st.outputs ∨ k ∈ objPropKeys props) ∧
    (handleReturn (some (.object props)) st).hasDynamicReturn
        = st.hasDynamicReturn := by
  rw [handleReturn_object]
  exact ⟨rfl, fun k => mem_foldl_addUniq _ _ _, rfl⟩

/-- C2 counterexample: when the default export's invoke property value is the
number 42, the analysis does raise (modelled as Except.error carrying the
TypeError from reading params off a non-function), so it is not total. -/
theorem c2_counterexample :
    validateConformance ⟨["userId"], ["success"]⟩ c2BadAst
        = .error typeErrorParams := rfl

/-- C2 amended: the analysis never raises as long as handler location itself
succeeds and yields either nothing or a function node; only a located invoke
value that is not a function makes input extraction throw. -/
theorem c2_no_raise_on_function (c : Contract) (ast : List TopItem)
    (r : Option Expr) (h : findInvokeHandler ast = .ok r)
    (hf : ∀ f, r = some f → isFunctionNode f = true) :
    exceptIsOk (validateConformance c ast) = true := by
  unfold validateConformance
  rw [h]
  cases r with
  | none => rfl
  | some f =>
      have hff := hf f rfl
      cases f with
      | fn a ps b =>
          cases ps with
          | nil => rfl
          | cons p rest => cases p <;> rfl
      | ident nm => simp [isFunctionNode] at hff
      | strLit v => simp [isFunctionNode] at hff
      | numLit v => simp [isFunctionNode] at hff
      | object props => simp [isFunctionNode] at hff
      | member o pr cc => simp [isFunctionNode] at hff
      | call cal args => simp [isFunctionNode] at hff
      | awaitE aa => simp [isFunctionNode] at hff
      | assign l rr => simp [isFunctionNode] at hff

/-- C2 witness: a concrete module whose invoke value is a function analyzes
to a success value. -/
theorem c2_witness :
    exceptIsOk (validateConformance ⟨["x"], []⟩ c2GoodAst) = true :=
  c2_no_raise_on_function ⟨["x"], []⟩ c2GoodAst
    (some (.fn true [.ident "params"] (.block []))) rfl
    (fun f hsome => by cases hsome; rfl)

/-- C3 counterexample: with invoke bound to the string 'nope', handler
location returns that non-function value rather than failing, and the
analysis ends in a raised TypeError, not in the single fatal
no-entry-handler error the claim predicts for this fourth failure reason. -/
theorem c3_counterexample :
    findInvokeHandler c3Ast = .ok (some (.strLit "nope")) ∧
    validateConformance ⟨[], []⟩ c3Ast = .error typeErrorParams ∧
    (Except.error typeErrorParams
        ≠ (.ok ⟨[noHandlerErr], []⟩ : Except String ConformanceResult)) := by
  refine ⟨rfl, rfl, ?_⟩
  intro h
  exact Except.noConfusion h

/-- C3 amended: for the three reasons the locator actually detects (no
default export, export not a record literal, no invoke property) the result
is the single fatal no-entry-handler error with passed false and neither
collector runs; a located invoke value that is not a function instead makes
the analysis throw. -/
theorem c3_locator_none_single_fatal (c : Contract) (ast : List TopItem)
    (h : findInvokeHandler ast = .ok none) :
    validateConformance c ast = .ok ⟨[noHandlerErr], []⟩ ∧
    (ConformanceResult.mk [noHandlerErr] []).passed = false := by
  constructor
  · unfold validateConformance
    rw [h]
    rfl
  · rfl

/-- C3 witness: the empty module has no default export, and the result is the
single fatal error with passed false. -/
theorem c3_witness :
    validateConformance ⟨["a"], ["b"]⟩ [] = .ok ⟨[noHandlerErr], []⟩ ∧
    (ConformanceResult.mk [noHandlerErr] []).passed = false :=
  c3_locator_none_single_fatal ⟨["a"], ["b"]⟩ [] rfl

/-- C4: when hasDynamicReturn is set and ProducedSet is empty the comparator
emits exactly one unverifiable-outputs warning and no output-mismatch errors
(the error list is exactly the defects plus the input mismatches); when
ProducedSet is non-empty both output checks run over the found keys and no
dynamic warning is emitted. -/
theorem c4_dynamic_skip (c : Contract) (ci : List String) (o : OutSt) :
    (o.hasDynamicReturn = true → o.outputs = [] →
      (compareConformance c ci o).warnings.count dynamicWarnMsg = 1 ∧
      (compareConformance c ci o).errors = o.errors ++ inputErrors c ci) ∧
    (o.outputs ≠ [] →
      (compareConformance c ci o).errors
          = o.errors ++ inputErrors c ci ++ outputMissingErrors c o.outputs
            ++ outputUndeclaredErrors c o.outputs ∧
      (compareConformance c ci o).warnings.count dynamicWarnMsg = 0) := by
  constructor
  · intro h1 h2
    rw [compareConformance_dyn c ci o h1 h2]
    refine ⟨?_, rfl⟩
    simp [List.count_append, count_dynamic_inputWarnings]
  · intro h2
    rw [compareConformance_found c ci o h2]
    exact ⟨rfl, count_dynamic_inputWarnings c ci⟩

/-- C4 witness: both branches at concrete inputs — a dynamic return with
empty ProducedSet yields one dynamic warning and only defect plus input
errors; a non-empty ProducedSet runs both output checks with no dynamic
warning. -/
theorem c4_witness :
    ((compareConformance c4Contract ["x"] c4DynOut).warnings.count
        dynamicWarnMsg = 1 ∧
     (compareConformance c4Contract ["x"] c4DynOut).errors
        = c4DynOut.errors ++ inputErrors c4Contract ["x"]) ∧
    ((compareConformance c4Contract ["x"] c4FoundOut).errors
        = c4FoundOut.errors ++ inputErrors c4Contract ["x"]
          ++ outputMissingErrors c4Contract c4FoundOut.outputs
          ++ outputUndeclaredErrors c4Contract c4FoundOut.outputs ∧
     (compareConformance c4Contract ["x"] c4FoundOut).warnings.count
        dynamicWarnMsg = 0) :=
  ⟨(c4_dynamic_skip c4Contract ["x"] c4DynOut).1 rfl rfl,
   (c4_dynamic_skip c4Contract ["x"] c4FoundOut).2 (by simp [c4FoundOut])⟩

/-- C5: a read name absent from the declared inputs always lands in the
error list, a declared input never read always lands in the warning list,
warnings never influence passed, and a run whose only discrepancies are
unused declared inputs has an empty error list and passes. -/
theorem c5_input_asymmetry (c : Contract) (ci : List String) (o : OutSt) :
    (∀ i, i ∈ ci → i ∉ c.inputs →
        inputErrMsg i ∈ (compareConformance c ci o).errors) ∧
    (∀ i, i ∈ c.inputs → i ∉ ci →
        inputWarnMsg i ∈ (compareConformance c ci o).warnings) ∧
    (∀ es ws ws', (ConformanceResult.mk es ws).passed
        = (ConformanceResult.mk es ws').passed) ∧
    (o.errors = [] → (∀ i, i ∈ ci → i ∈ c.inputs) →
      outputMissingErrors c o.outputs = [] →
      outputUndeclaredErrors c o.outputs = [] →
      (compareConformance c ci o).errors = [] ∧
      (compareConformance c ci o).passed = true) := by
  refine ⟨?_, ?_, fun es ws ws' => rfl, ?_⟩
  · intro i hi hni
    have hmem : inputErrMsg i ∈ inputErrors c ci := by
      simp only [inputErrors, List.mem_map]
      exact ⟨i, List.mem_filter.mpr ⟨hi, by simpa using hni⟩, rfl⟩
    unfold compareConformance
    split <;> simp [List.mem_append, hmem]
  · intro i hi hni
    have hmem : inputWarnMsg i ∈ inputWarnings c ci := by
      simp only [inputWarnings, List.mem_map]
      exact ⟨i, List.mem_filter.mpr ⟨hi, by simpa using hni⟩, rfl⟩
    unfold compareConformance
    split <;> simp [List.mem_append, hmem]
  · intro he hsub hmo hmu
    have hie : inputErrors c ci = [] := by
      unfold inputErrors
      have : ci.filter (fun i => decide (i ∉ c.inputs)) = [] := by
        rw [List.filter_eq_nil_iff]
        intro a ha
        simp [hsub a ha]
      rw [this]
      rfl
    have herr : (compareConformance c ci o).errors = [] := by
      unfold compareConformance
      split <;> simp [he, hie, hmo, hmu]
    exact ⟨herr, by simp [ConformanceResult.passed, herr]⟩

/-- C5 witness: contract inputs x and y, handler reads only x, outputs
conformant — y yields a warning, the error list is empty, and the run
passes. -/
theorem c5_witness :
    inputWarnMsg "y" ∈ (compareConformance c5Contract ["x"] c5Out).warnings ∧
    (compareConformance c5Contract ["x"] c5Out).errors = [] ∧
    (compareConformance c5Contract ["x"] c5Out).passed = true :=
  ⟨(c5_input_asymmetry c5Contract ["x"] c5Out).2.1 "y" (by decide) (by decide),
   ((c5_input_asymmetry c5Contract ["x"] c5Out).2.2.2 rfl (by decide)
      rfl rfl).1,
   ((c5_input_asymmetry c5Contract ["x"] c5Out).2.2.2 rfl (by decide)
      rfl rfl).2⟩

/-- C6: the return-statement search descends into nested function literals —
a return wrapped in a nested function-literal statement contributes exactly
what the same return statement contributes at the top level, and the handler
whose only return sits inside a nested callback still produces its key. -/
theorem c6_nested_return_search :
    (∀ (arg : Option Expr) (st : OutSt),
        outStmt (.exprStmt (.fn false [] (.block [.ret arg]))) st
          = outStmt (.ret arg) st) ∧
    extractOutputs c6Fn = .ok ⟨["status"], [], false⟩ := by
  refine ⟨fun arg st => ?_, rfl⟩
  cases arg <;> rfl

/-- C7: on an aliased parameter, the non-computed access alias.foo adds foo
to the accumulated set while the computed access with the literal string key
adds nothing, and the concrete handler reading params.foo and
a computed bar access yields exactly the foo usage. -/
theorem c7_computed_access_asymmetry (p : String) (acc : List String) :
    inpExpr p (.member (.ident p) (.ident "foo") false) acc
        = addUniq acc "foo" ∧
    inpExpr p (.member (.ident p) (.lit "foo") true) acc = acc ∧
    extractInputs c7Fn = .ok ["foo"] := by
  refine ⟨?_, ?_, rfl⟩
  · simp [inpExpr, handleMember, Key.str]
  · simp [inpExpr, handleMember]

/-- C8 counterexample: the handler reassigns params and then destructures
the name params — the claim predicts no contribution after reassignment, but
the collector still adds x. -/
theorem c8_counterexample :
    extractInputs c8Fn = .ok ["x"] ∧ (["x"] : List String) ≠ [] :=
  ⟨rfl, by simp⟩

/-- C8 amended: the declarator visitor matches purely syntactically — it
contributes the destructured names exactly when the initializer is the
identifier bearing the alias's name, regardless of any earlier reassignment
of that name, and any other initializer expression contributes nothing. -/
theorem c8_syntactic_alias_match (p : String) (keys : List Key)
    (acc : List String) :
    (∀ e : Expr, isAliasIdent p e = false →
        handleDeclarator p (.mk (.objectPat keys) (some e)) acc = acc) ∧
    handleDeclarator p (.mk (.objectPat keys) (some (.ident p))) acc
        = (keys.map Key.str).foldl addUniq acc ∧
    (∀ k, k ∈ keys →
        k.str ∈ handleDeclarator p
          (.mk (.objectPat keys) (some (.ident p))) acc) := by
  have hmatch : handleDeclarator p (.mk (.objectPat keys) (some (.ident p))) acc
      = (keys.map Key.str).foldl addUniq acc := by
    simp [handleDeclarator, List.foldl_map]
  refine ⟨?_, hmatch, ?_⟩
  · intro e he
    cases e with
    | ident nm =>
        have hne : ¬ nm = p := by simpa [isAliasIdent] using he
        simp [handleDeclarator, hne]
    | strLit v => rfl
    | numLit v => rfl
    | object props => rfl
    | member o pr cc => rfl
    | call cal args => rfl
    | awaitE aa => rfl
    | assign l rr => rfl
    | fn a ps b => rfl
  · intro k hk
    rw [hmatch, mem_foldl_addUniq]
    exact Or.inr (List.mem_map_of_mem Key.str hk)

/-- C8 witness: destructuring a derived value (a call) contributes nothing,
and destructuring the alias identifier contributes its key. -/
theorem c8_witness :
    handleDeclarator "params"
        (.mk (.objectPat [.ident "x"]) (some (.call (.ident "g") []))) [] = [] ∧
    Key.str (.ident "x") ∈ handleDeclarator "params"
        (.mk (.objectPat [.ident "x"]) (some (.ident "params"))) [] :=
  ⟨(c8_syntactic_alias_match "params" [.ident "x"] []).1
      (.call (.ident "g") []) rfl,
   (c8_syntactic_alias_match "params" [.ident "x"] []).2.2 (.ident "x")
      (List.mem_singleton.mpr rfl)⟩

/-- C9 counterexample: on a run with one spread defect and one
used-but-undeclared input, the final error list places the structural defect
before the contract-mismatch error, so the defects are not appended after
the contract-mismatch errors. -/
theorem c9_counterexample :
    validateConformance c9Contract c9Ast
        = .ok ⟨[spreadErrMsg, inputErrMsg "foo"], []⟩ ∧
    spreadErrMsg ≠ inputErrMsg "foo" := by
  refine ⟨rfl, ?_⟩
  decide

/-- C9 amended: every structural defect reported by the collector is
included in the comparator's error list unconditionally — the error list
always extends the defect list, also on the dynamic-return path that skips
the output checks — but the defects stand at the front of the ordered list,
before the contract-mismatch errors. -/
theorem c9_defects_first (c : Contract) (ci : List String) (o : OutSt) :
    (∃ rest, (compareConformance c ci o).errors = o.errors ++ rest) ∧
    (o.hasDynamicReturn = true → o.outputs = [] →
      (compareConformance c ci o).errors = o.errors ++ inputErrors c ci) := by
  constructor
  · unfold compareConformance
    split
    · exact ⟨inputErrors c ci, rfl⟩
    · exact ⟨inputErrors c ci ++ outputMissingErrors c o.outputs
               ++ outputUndeclaredErrors c o.outputs, by
                 simp [List.append_assoc]⟩
  · intro h1 h2
    rw [compareConformance_dyn c ci o h1 h2]

/-- C9 witness: a dynamic-return run with one defect keeps the defect at the
front of the error list even though output checks were skipped. -/
theorem c9_witness :
    (∃ rest,
        (compareConformance c9Contract ["foo"] ⟨[], [spreadErrMsg], true⟩).errors
          = (⟨[], [spreadErrMsg], true⟩ : OutSt).errors ++ rest) ∧
    (compareConformance c9Contract ["foo"] ⟨[], [spreadErrMsg], true⟩).errors
        = (⟨[], [spreadErrMsg], true⟩ : OutSt).errors
          ++ inputErrors c9Contract ["foo"] :=
  ⟨(c9_defects_first c9Contract ["foo"] ⟨[], [spreadErrMsg], true⟩).1,
   (c9_defects_first c9Contract ["foo"] ⟨[], [spreadErrMsg], true⟩).2 rfl rfl⟩

/-- C10: the parameter-usage search descends into nested function literals —
a statement wrapped in a nested function-literal statement contributes
exactly what it contributes at the top level, and the concrete handler whose
alias destructuring and member access sit inside a nested callback collects
both names. -/
theorem c10_nested_input_search (p : String) :
    (∀ (s : Stmt) (acc : List String),
        inpStmt p (.exprStmt (.fn false [] (.block [s]))) acc
          = inpStmt p s acc) ∧
    extractInputs c10Fn = .ok ["a", "b"] :=
  ⟨fun _ _ => rfl, rfl⟩
